import Mathlib

/-!
Verification development for the recursive cloning pipeline of
src/cloneNode.ts (html-to-image).

The source is embedded shallowly:

* a live document node becomes an immutable value of type `SNode`
  (identified by a numeric id, standing for its heap identity);
* a constructed clone becomes a value of type `CNode`, also carrying an id;
* the asynchronous promise chain becomes the monad `CloneM`: a fresh-id
  counter (new nodes are allocated at the current counter) together with a
  log of the collaborator invocations that were started and of every
  mutation of an already constructed node (recorded by target id), and an
  `Except` result modelling promise rejection;
* the external collaborators that live outside this file
  (getBlobFromURL, createImage, getMimeType, makeDataUrl,
  clonePseudoElements) are supplied by an environment record `Env`,
  each field modelled from the spec of its contract.
-/

/-- Rejection value carried by a failed promise. -/
abbrev Err := String

/-- Result of the external blob fetch: the payload and the content type
sniffed by the fetch. -/
structure Blob where
  blob : String
  contentType : String

/-- A computed-style snapshot for one node: the serialized style text
(empty when the host exposes none) and the declared properties as
(name, value, priority) triples, in declaration order. -/
structure CStyle where
  cssText : String
  props : List (String × String × String)

/-- getPropertyValue on a computed style: the value of the named
declaration, or the empty string when the property is not declared. -/
def CStyle.getPropertyValue (s : CStyle) (name : String) : String :=
  match s.props.find? (fun p => p.1 == name) with
  | some p => p.2.1
  | none => ""

/-- getPropertyPriority on a computed style. -/
def CStyle.getPropertyPriority (s : CStyle) (name : String) : String :=
  match s.props.find? (fun p => p.1 == name) with
  | some p => p.2.2
  | none => ""

/-- The node kinds the source dispatches on via instanceof checks:
HTMLCanvasElement (with the result of toDataURL), HTMLVideoElement (with
its poster URL), HTMLTextAreaElement, HTMLInputElement, any other element,
and non-element nodes (text or comment). -/
inductive SKind where
  | canvas (dataURL : String)
  | video (poster : String)
  | textarea
  | input
  | element
  | textNode
deriving DecidableEq

/-- A node of the live source tree. `id` stands for its heap identity,
`value` is the live current value for form controls (and the character
data for non-element nodes), `children` the literal child nodes,
`shadowChildren` the child list of an attached shadow root when one
exists, and `assigned` the assigned (projected) nodes when the node
supports assignment (slot elements). -/
inductive SNode where
  | mk (id : Nat) (kind : SKind) (tagName : Option String)
      (attrs : List (String × String)) (value : String) (style : CStyle)
      (children : List SNode) (shadowChildren : Option (List SNode))
      (assigned : Option (List SNode))

def SNode.id : SNode → Nat
  | .mk i _ _ _ _ _ _ _ _ => i

def SNode.kind : SNode → SKind
  | .mk _ k _ _ _ _ _ _ _ => k

def SNode.tagName : SNode → Option String
  | .mk _ _ t _ _ _ _ _ _ => t

def SNode.attrs : SNode → List (String × String)
  | .mk _ _ _ a _ _ _ _ _ => a

def SNode.value : SNode → String
  | .mk _ _ _ _ v _ _ _ _ => v

def SNode.style : SNode → CStyle
  | .mk _ _ _ _ _ s _ _ _ => s

def SNode.children : SNode → List SNode
  | .mk _ _ _ _ _ _ cs _ _ => cs

def SNode.shadowChildren : SNode → Option (List SNode)
  | .mk _ _ _ _ _ _ _ sh _ => sh

def SNode.assigned : SNode → Option (List SNode)
  | .mk _ _ _ _ _ _ _ _ asg => asg

/-- node instanceof HTMLVideoElement. -/
def SNode.isVideo (n : SNode) : Bool :=
  match n.kind with
  | SKind.video _ => true
  | _ => false

/-- node instanceof HTMLTextAreaElement. -/
def SNode.isTextarea (n : SNode) : Bool :=
  match n.kind with
  | SKind.textarea => true
  | _ => false

/-- node instanceof HTMLInputElement. -/
def SNode.isInput (n : SNode) : Bool :=
  match n.kind with
  | SKind.input => true
  | _ => false

/-- Whether the node is an element (clones of non-element nodes are not
Element instances and carry no style surface). -/
def SNode.isElementKind (n : SNode) : Bool :=
  match n.kind with
  | SKind.textNode => false
  | _ => true

/-- node.toDataURL() for a canvas node, as recorded in its kind. -/
def SNode.toDataURL (n : SNode) : String :=
  match n.kind with
  | SKind.canvas d => d
  | _ => ""

/-- node.poster for a video node, as recorded in its kind. -/
def SNode.poster (n : SNode) : String :=
  match n.kind with
  | SKind.video p => p
  | _ => ""

/-- String.prototype.toUpperCase, character by character. -/
def jsToUpper (s : String) : String :=
  String.mk (s.data.map Char.toUpper)

/-- Translation of isSlotElement:
node.tagName != null && node.tagName.toUpperCase() === SLOT. -/
def SNode.isSlotElement (node : SNode) : Bool :=
  match node.tagName with
  | some t => jsToUpper t == "SLOT"
  | none => false

/-- A constructed clone node. `id` stands for its heap identity,
allocated from the monad counter. `innerHTML` records the most recent
innerHTML assignment (empty when none was made), `nodeValue` the character
data carried over by a structural clone of a non-element node. -/
inductive CNode where
  | mk (id : Nat) (isElement : Bool) (tagName : Option String)
      (attrs : List (String × String)) (nodeValue : String)
      (innerHTML : String) (children : List CNode)

def CNode.id : CNode → Nat
  | .mk i _ _ _ _ _ _ => i

def CNode.isElement : CNode → Bool
  | .mk _ e _ _ _ _ _ => e

def CNode.tagName : CNode → Option String
  | .mk _ _ t _ _ _ _ => t

def CNode.attrs : CNode → List (String × String)
  | .mk _ _ _ a _ _ _ => a

def CNode.nodeValue : CNode → String
  | .mk _ _ _ _ v _ _ => v

def CNode.innerHTML : CNode → String
  | .mk _ _ _ _ _ h _ => h

def CNode.children : CNode → List CNode
  | .mk _ _ _ _ _ _ cs => cs

/-- setAttribute on an attribute list: replace the value of an existing
attribute in place, else append the new attribute at the end. -/
def setAttrList : List (String × String) → String → String → List (String × String)
  | [], n, v => [(n, v)]
  | p :: rest, n, v => if p.1 == n then (n, v) :: rest else p :: setAttrList rest n v

/-- clonedNode.setAttribute(n, v). -/
def CNode.setAttr : CNode → String → String → CNode
  | .mk i e t a nv h cs, n, v => .mk i e t (setAttrList a n v) nv h cs

/-- clonedNode.getAttribute(n): none when the attribute is absent. -/
def CNode.getAttr? : CNode → String → Option String
  | .mk _ _ _ a _ _ _, n => (a.find? (fun p => p.1 == n)).map (fun p => p.2)

/-- getAttribute interpolated into a JS template literal: the null of an
absent attribute prints as the string "null". -/
def CNode.getAttrJS (c : CNode) (n : String) : String :=
  match c.getAttr? n with
  | some v => v
  | none => "null"

/-- clonedNode.appendChild(child): the child is appended at the end of the
child list of the mutated node. -/
def CNode.appendChildF : CNode → CNode → CNode
  | .mk i e t a nv h cs, child => .mk i e t a nv h (cs ++ [child])

def CNode.setChildren : CNode → List CNode → CNode
  | .mk i e t a nv h _, cs => .mk i e t a nv h cs

def CNode.setId : CNode → Nat → CNode
  | .mk _ e t a nv h cs, i => .mk i e t a nv h cs

/-- clonedNode.innerHTML = s: replaces the existing children with the
parsed content, modelled as storing the raw string with no children. -/
def CNode.setInnerHTML : CNode → String → CNode
  | .mk i e t a nv _ _, s => .mk i e t a nv s []

/-- The Options record: an optional filter predicate; the passthrough
fields consumed only by collaborators are captured inside `Env`. -/
structure Options where
  filter : Option (SNode → Bool)

/-- The external collaborators consumed by the core, as oracles. -/
structure Env where
  /-- Modelled from the spec: getBlobFromURL(url, options) resolves to a
  blob and a sniffed content type, or rejects; the rejection propagates.
  The Options passthrough fields it honours are captured in this field. -/
  fetchBlob : String → Except Err Blob
  /-- Modelled from the spec: createImage(dataURL) decodes asynchronously
  and rejects on failure; this oracle decides whether decoding a given
  data URL succeeds. On success the clone is a fresh image-kind node
  whose underlying source is the data URL (built by `createImage`). -/
  decodeImage : String → Except Err Unit
  /-- Modelled from the spec: getMimeType(url) -> string or undefined. -/
  getMimeType : String → Option String
  /-- Modelled from the spec: makeDataUrl(blob, mime) -> string,
  a synchronous helper building a data URL. -/
  makeDataUrl : String → String → String
  /-- Modelled from the spec: clonePseudoElements(source, clone) mutates
  the clone in place and never rejects for nodes without pseudo-content;
  in-place mutation cannot change the identity of the clone, which is
  enforced where the field is invoked. -/
  pseudo : SNode → CNode → CNode

/-- One observable step of the pipeline: a collaborator invocation that
was started (fetch of a URL, decode of a data URL) or a mutation of an
already constructed node, recorded by the id of the mutated node. -/
inductive LogEntry where
  | fetchCall (url : String)
  | imageCall (url : String)
  | write (target : Nat)
deriving DecidableEq

/-- The effect monad of the embedding: fresh-id counter in, result
(or rejection) with final counter and step log out. -/
abbrev CloneM (α : Type) : Type := Nat → Except Err α × Nat × List LogEntry

def CloneM.pure {α : Type} (a : α) : CloneM α := fun c => (.ok a, c, [])

def CloneM.bind {α β : Type} (x : CloneM α) (f : α → CloneM β) : CloneM β := fun c =>
  match x c with
  | (.ok a, c1, l1) =>
    match f a c1 with
    | (r, c2, l2) => (r, c2, l1 ++ l2)
  | (.error e, c1, l1) => (.error e, c1, l1)

instance : Monad CloneM where
  pure := CloneM.pure
  bind := CloneM.bind

/-- A started getBlobFromURL invocation: logged, result taken from the
environment, no allocation. -/
def callFetch (env : Env) (url : String) : CloneM Blob := fun c =>
  (env.fetchBlob url, c, [LogEntry.fetchCall url])

/-- The image-kind node produced by a successful createImage: a fresh
element whose underlying source is the decoded data URL. -/
def imageNode (id : Nat) (src : String) : CNode :=
  CNode.mk id true (some "IMG") [("src", src)] "" "" []

/-- Modelled from the spec: createImage(dataURL) decodes the data URL
asynchronously into an image-kind node; a rejection propagates. -/
def createImage (env : Env) (dataURL : String) : CloneM CNode := fun c =>
  match env.decodeImage dataURL with
  | .ok _ => (.ok (imageNode c dataURL), c + 1, [LogEntry.imageCall dataURL])
  | .error e => (.error e, c, [LogEntry.imageCall dataURL])

/-- node.cloneNode(false): a fresh shallow structural clone carrying the
markup attributes (and the character data for non-element nodes) but no
children and no live form state. -/
def shallowClone (node : SNode) : CloneM CNode := fun c =>
  (.ok (CNode.mk c node.isElementKind node.tagName node.attrs
      (match node.kind with | SKind.textNode => node.value | _ => "") "" []),
   c + 1, [])

/-- In-place mutation of an already constructed clone: the write is
logged with the id of the mutated node, which is preserved. -/
def mutate (cl : CNode) (f : CNode → CNode) : CloneM CNode := fun c =>
  (.ok (f cl), c, [LogEntry.write cl.id])

/-- Translation of cloneCanvasElement (src/cloneNode.ts lines 7-14),
with dataURL standing for node.toDataURL(). -/
def cloneCanvasElement (env : Env) (node : SNode) : CloneM CNode :=
  if node.toDataURL == "data:," then
    shallowClone node
  else
    createImage env node.toDataURL

/-- JS a || b where a : string | undefined: undefined and the empty
string are falsy. -/
def jsOrElse (a : Option String) (b : String) : String :=
  match a with
  | some s => if s == "" then b else s
  | none => b

/-- Translation of cloneVideoElement (src/cloneNode.ts lines 16-23):
fetch the poster, build a data URL with the declared MIME type when
resolvable (else the sniffed content type), decode it into an image. -/
def cloneVideoElement (env : Env) (node : SNode) (options : Options) : CloneM CNode := do
  let data ← callFetch env node.poster
  let dataURL := env.makeDataUrl data.blob (jsOrElse (env.getMimeType node.poster) data.contentType)
  createImage env dataURL

/-- Translation of cloneSingleNode (src/cloneNode.ts lines 25-38). -/
def cloneSingleNode (env : Env) (node : SNode) (options : Options) : CloneM CNode :=
  match node.kind with
  | SKind.canvas _ => cloneCanvasElement env node
  | SKind.video poster =>
    if poster == "" then shallowClone node else cloneVideoElement env node options
  | _ => shallowClone node

/-- The effective child source resolved at the top of cloneChildren
(src/cloneNode.ts lines 48-51): assigned nodes for a slot that supports
assignment, else the shadow-root children when a shadow root is attached,
else the literal children. -/
def effectiveChildren (node : SNode) : List SNode :=
  if node.isSlotElement && node.assigned.isSome then
    node.assigned.getD []
  else
    node.shadowChildren.getD node.children

/-- Serialization of one declaration as written back into the style
attribute by setProperty (host DOM behaviour, modelled). -/
def declText (p : String × String × String) : String :=
  p.1 ++ ": " ++ p.2.1 ++ (if p.2.2 == "" then "" else " !" ++ p.2.2) ++ "; "

/-- The style attribute text produced by iterating setProperty over every
declared property (host DOM serialization, modelled); setProperty with an
empty value removes the declaration. -/
def serializeProps (props : List (String × String × String)) : String :=
  String.join ((props.filter (fun p => !(p.2.1 == ""))).map declText)

/-- String.prototype.includes for a single-character needle. -/
def jsIncludesChar (s : String) (c : Char) : Bool :=
  s.data.contains c

/-- Decimal digit run to a number. -/
def digitsVal (l : List Char) : Nat :=
  l.foldl (fun a c => a * 10 + (c.toNat - 48)) 0

/-- The digit parts of a decimal literal such as "10.95px": the digits
before and after the dot read as one integer, together with the number of
fraction digits. -/
def parseFloatParts (s : String) : Nat × Nat :=
  let l := s.toList
  let ip := l.takeWhile Char.isDigit
  let rest := l.dropWhile Char.isDigit
  match rest with
  | '.' :: r2 =>
    let fd := r2.takeWhile Char.isDigit
    (digitsVal (ip ++ fd), fd.length)
  | _ => (digitsVal ip, 0)

/-- JS parseFloat on a computed pixel length such as "10.95px": leading
decimal digits, optionally a dot and further digits, read as the exact
rational digits / 10 ^ fractionDigits (computed lengths carry no sign and
no exponent). -/
def parseFloat (s : String) : ℚ :=
  ((parseFloatParts s).1 : ℚ) / (10 : ℚ) ^ (parseFloatParts s).2

/-- The width written by the paragraph quirk patch (src/cloneNode.ts
lines 121-127): floatWidth % 1 on a nonnegative number is Int.fract, and
Math.ceil is the integer ceiling. -/
def widthPatchValue (width : String) : Int :=
  let floatWidth := parseFloat width
  let floatWidth := if Int.fract floatWidth > (0.9 : ℚ) then floatWidth + 1 else floatWidth
  ⌈floatWidth⌉

/-- The initial style copy of cloneCSSStyle (src/cloneNode.ts lines
82-93): copy the serialized style text wholesale when the host exposes
one, else iterate setProperty over every declared property. -/
def applyStyleText (source : CStyle) (c : CNode) : CNode :=
  if !(source.cssText == "") then c.setAttr "style" source.cssText
  else if (source.props.filter (fun p => !(p.2.1 == ""))).isEmpty then c
  else c.setAttr "style" (serializeProps source.props)

/-- One conditional quirk patch of cloneCSSStyle: when the condition
holds, append the given segment to the current style attribute text (the
null of an absent attribute prints as "null" in the template literal). -/
def appendStylePatch (c : CNode) (cond : Bool) (seg : String) : CNode :=
  if cond then c.setAttr "style" (c.getAttrJS "style" ++ seg) else c

/-- Translation of the body of cloneCSSStyle (src/cloneNode.ts lines
74-152) as a pure transformation of the clone: copy the computed style,
then the fixed sequence of quirk patches, each appended to the style
attribute text, in source order. -/
def cloneCSSStyleF (nativeNode : SNode) (clonedNode : CNode) : CNode :=
  let source := nativeNode.style
  if !clonedNode.isElement then clonedNode
  else
    let c := applyStyleText source clonedNode
    let wbc := source.getPropertyValue "-webkit-background-clip"
    let c := appendStylePatch c (!(wbc == "border-box"))
      (";-webkit-background-clip:" ++ wbc ++ ";")
    let ffs := source.getPropertyValue "font-feature-settings"
    let c := appendStylePatch c (!(ffs == "\"kern\""))
      (";font-feature-settings:" ++ ffs ++ ";")
    let c :=
      if nativeNode.tagName == some "P" then
        let width := source.getPropertyValue "width"
        appendStylePatch c (jsIncludesChar width '.')
          (";width:" ++ toString (widthPatchValue width) ++ "px;")
      else c
    let alignItems := source.getPropertyValue "align-items"
    let c := appendStylePatch c (!(alignItems == "normal"))
      (";align-items:" ++ alignItems ++ ";")
    let perspective := source.getPropertyValue "perspective"
    let c := appendStylePatch c (!(perspective == "none"))
      (";perspective:" ++ perspective ++ ";")
    c

/-- cloneCSSStyle as a pipeline step: non-element clones have no style
surface and are returned unchanged; otherwise the clone is mutated. -/
def cloneCSSStyleM (nativeNode : SNode) (clonedNode : CNode) : CloneM CNode :=
  if !clonedNode.isElement then pure clonedNode
  else mutate clonedNode (cloneCSSStyleF nativeNode)

/-- clonePseudoElements as a pipeline step: the collaborator mutates the
clone in place, so the identity of the clone is preserved. -/
def clonePseudoM (env : Env) (nativeNode : SNode) (clonedNode : CNode) : CloneM CNode :=
  mutate clonedNode (fun c => (env.pseudo nativeNode c).setId c.id)

/-- Translation of cloneInputValue (src/cloneNode.ts lines 154-162):
write the live value as text content for a textarea, as the value
attribute for an input, and do nothing otherwise. -/
def cloneInputValueM (nativeNode : SNode) (clonedNode : CNode) : CloneM CNode := do
  let c1 ←
    if nativeNode.isTextarea then mutate clonedNode (fun c => c.setInnerHTML nativeNode.value)
    else pure clonedNode
  if nativeNode.isInput then mutate c1 (fun c => c.setAttr "value" nativeNode.value)
  else pure c1

/-- Translation of decorate (src/cloneNode.ts lines 164-177): a no-op for
non-element clones, else style snapshot, then pseudo-element replication,
then value materialization. -/
def decorate (env : Env) (nativeNode : SNode) (clonedNode : CNode) : CloneM CNode :=
  if !clonedNode.isElement then pure clonedNode
  else do
    let c ← cloneCSSStyleM nativeNode clonedNode
    let c ← clonePseudoM env nativeNode c
    let c ← cloneInputValueM nativeNode c
    pure c

/-- Translation of the pruning test of cloneNode:
options.filter && !options.filter(node). -/
def filterRejects (options : Options) (node : SNode) : Bool :=
  match options.filter with
  | some f => !f node
  | none => false

theorem list_sizeOf_pos {α : Type} [SizeOf α] (l : List α) : 1 ≤ sizeOf l := by
  cases l with
  | nil => simp
  | cons a as => simp only [List.cons.sizeOf_spec]; omega

theorem sizeOf_effectiveChildren_lt (node : SNode) :
    sizeOf (effectiveChildren node) < sizeOf node := by
  cases node with
  | mk i k t a v s cs sh asg =>
    simp only [effectiveChildren, SNode.assigned, SNode.shadowChildren, SNode.children,
      SNode.mk.sizeOf_spec]
    split
    · cases asg with
      | none => simp_all
      | some l =>
        simp only [Option.getD_some, Option.some.sizeOf_spec]
        omega
    · cases sh with
      | none => simp only [Option.getD_none]; omega
      | some l =>
        simp only [Option.getD_some, Option.some.sizeOf_spec]
        omega

mutual

/-- Translation of cloneNode (src/cloneNode.ts lines 179-192): prune a
non-root node rejected by the filter, else compose the type-specific
shallow clone, the recursive child traversal and the decoration. -/
def cloneNodeM (env : Env) (node : SNode) (options : Options) (isRoot : Bool) :
    CloneM (Option CNode) :=
  if !isRoot && filterRejects options node then pure none
  else do
    let c ← cloneSingleNode env node options
    let c ← cloneChildrenM env node c options
    let c ← decorate env node c
    pure (some c)
termination_by 3 * sizeOf node + 2
decreasing_by
  all_goals simp_wf
  all_goals omega

/-- Translation of cloneChildren (src/cloneNode.ts lines 43-72): skip
when the effective child list is empty or the node is a video, else clone
and append each child sequentially. -/
def cloneChildrenM (env : Env) (nativeNode : SNode) (clonedNode : CNode) (options : Options) :
    CloneM CNode :=
  let children := effectiveChildren nativeNode
  if children.length == 0 || nativeNode.isVideo then pure clonedNode
  else foldChildrenM env children clonedNode options
termination_by 3 * sizeOf nativeNode + 1
decreasing_by
  all_goals simp_wf
  all_goals have := sizeOf_effectiveChildren_lt nativeNode
  all_goals omega

/-- The promise-chain reduce of cloneChildren: each child is cloned
(non-root) and, when not pruned, appended, strictly in order; the clone of
a child starts only after the previous child was fully processed. -/
def foldChildrenM (env : Env) (cs : List SNode) (clonedNode : CNode) (options : Options) :
    CloneM CNode :=
  match cs with
  | [] => pure clonedNode
  | child :: rest => do
    let clonedChild ← cloneNodeM env child options false
    let c ←
      match clonedChild with
      | some cc => mutate clonedNode (fun cl => cl.appendChildF cc)
      | none => pure clonedNode
    foldChildrenM env rest c options
termination_by 3 * sizeOf cs
decreasing_by
  all_goals simp_wf
  all_goals try simp only [List.cons.sizeOf_spec]
  all_goals omega

end

/-- Reference sequential runner over a child list: each child is cloned
with isRoot false, strictly in source order, and the counter and log of
child i are fully threaded before the clone of child i+1 starts; the
individual results (null for a pruned child) are collected in order. -/
def runSeq (env : Env) (options : Options) : List SNode → CloneM (List (Option CNode))
  | [] => pure []
  | child :: rest => do
    let r ← cloneNodeM env child options false
    let rs ← runSeq env options rest
    pure (r :: rs)

/-- Appending a sequence of per-child results to a clone: pruned (null)
children are omitted, the others keep their order. -/
def appendAll (clonedNode : CNode) (rs : List (Option CNode)) : CNode :=
  clonedNode.setChildren (clonedNode.children ++ rs.reduceOption)

theorem sizeOf_children_lt (node : SNode) : sizeOf node.children < sizeOf node := by
  cases node with
  | mk i k t a v s cs sh asg =>
    simp only [SNode.children, SNode.mk.sizeOf_spec]
    omega

theorem sizeOf_shadowD_lt (node : SNode) :
    sizeOf (node.shadowChildren.getD []) < sizeOf node := by
  cases node with
  | mk i k t a v s cs sh asg =>
    have := list_sizeOf_pos cs
    cases sh with
    | none =>
      simp only [SNode.shadowChildren, Option.getD_none, SNode.mk.sizeOf_spec,
        List.nil.sizeOf_spec]
      omega
    | some l =>
      simp only [SNode.shadowChildren, Option.getD_some, SNode.mk.sizeOf_spec,
        Option.some.sizeOf_spec]
      omega

theorem sizeOf_assignedD_lt (node : SNode) :
    sizeOf (node.assigned.getD []) < sizeOf node := by
  cases node with
  | mk i k t a v s cs sh asg =>
    have := list_sizeOf_pos cs
    cases asg with
    | none =>
      simp only [SNode.assigned, Option.getD_none, SNode.mk.sizeOf_spec,
        List.nil.sizeOf_spec]
      omega
    | some l =>
      simp only [SNode.assigned, Option.getD_some, SNode.mk.sizeOf_spec,
        Option.some.sizeOf_spec]
      omega

mutual

/-- Every node of a source tree: the node itself, then the nodes of its
literal children, of its shadow subtree and of its assigned nodes. -/
def sourceNodes (node : SNode) : List SNode :=
  node :: (sourceNodesList node.children ++
    sourceNodesList (node.shadowChildren.getD []) ++
    sourceNodesList (node.assigned.getD []))
termination_by 2 * sizeOf node
decreasing_by
  all_goals simp_wf
  · have := sizeOf_children_lt node
    omega
  · have := sizeOf_shadowD_lt node
    omega
  · have := sizeOf_assignedD_lt node
    omega

def sourceNodesList (l : List SNode) : List SNode :=
  match l with
  | [] => []
  | n :: rest => sourceNodes n ++ sourceNodesList rest
termination_by 2 * sizeOf l - 1
decreasing_by
  all_goals simp_wf
  all_goals try simp only [List.cons.sizeOf_spec]
  all_goals omega

end

/-! Basic run lemmas for the monad. -/

theorem bindDef {α β : Type} (x : CloneM α) (f : α → CloneM β) :
    x >>= f = CloneM.bind x f := rfl

theorem pureDef {α : Type} (a : α) : (pure a : CloneM α) = CloneM.pure a := rfl

theorem runPure {α : Type} (a : α) (c : Nat) : (pure a : CloneM α) c = (.ok a, c, []) := rfl

theorem runBind_ok {α β : Type} {x : CloneM α} {f : α → CloneM β} {c c1 : Nat}
    {a : α} {l1 : List LogEntry} (h : x c = (.ok a, c1, l1)) {r : Except Err β}
    {c2 : Nat} {l2 : List LogEntry} (h2 : f a c1 = (r, c2, l2)) :
    (x >>= f) c = (r, c2, l1 ++ l2) := by
  show CloneM.bind x f c = _
  unfold CloneM.bind
  rw [h]
  dsimp only
  rw [h2]

theorem runBind_error {α β : Type} {x : CloneM α} {f : α → CloneM β} {c c1 : Nat}
    {e : Err} {l1 : List LogEntry} (h : x c = (.error e, c1, l1)) :
    (x >>= f) c = (.error e, c1, l1) := by
  show CloneM.bind x f c = _
  unfold CloneM.bind
  rw [h]

/-- Inversion of one bind step of a run. -/
theorem runBind_cases {α β : Type} {x : CloneM α} {f : α → CloneM β} {c c2 : Nat}
    {r : Except Err β} {l : List LogEntry} (h : (x >>= f) c = (r, c2, l)) :
    (∃ e c1 l1, x c = (.error e, c1, l1) ∧ r = .error e ∧ c2 = c1 ∧ l = l1) ∨
    (∃ a c1 l1 l2, x c = (.ok a, c1, l1) ∧ f a c1 = (r, c2, l2) ∧ l = l1 ++ l2) := by
  rw [bindDef] at h
  unfold CloneM.bind at h
  rcases hx : x c with ⟨r0, c1, l1⟩
  rw [hx] at h
  cases r0 with
  | error e =>
    left
    dsimp only at h
    exact ⟨e, c1, l1, rfl, by simp_all⟩
  | ok a =>
    right
    dsimp only at h
    rcases hf : f a c1 with ⟨r1, cf, lf⟩
    rw [hf] at h
    dsimp only at h
    simp only [Prod.mk.injEq] at h
    exact ⟨a, c1, l1, lf, rfl, by rw [hf, h.1, h.2.1], h.2.2.symm⟩

/-! Lemmas about attributes and node identities. -/

theorem find?_setAttrList (l : List (String × String)) (n v : String) :
    (setAttrList l n v).find? (fun p => p.1 == n) = some (n, v) := by
  induction l with
  | nil => simp [setAttrList]
  | cons p rest ih =>
    by_cases hp : (p.1 == n) = true
    · simp [setAttrList, hp]
    · have hp2 : (p.1 == n) = false := by simp_all
      simp [setAttrList, hp2, List.find?, ih]

theorem getAttr?_setAttr_self (c : CNode) (n v : String) :
    (c.setAttr n v).getAttr? n = some v := by
  cases c with
  | mk i e t a nv h cs =>
    simp [CNode.setAttr, CNode.getAttr?, find?_setAttrList]

theorem id_setAttr (c : CNode) (n v : String) : (c.setAttr n v).id = c.id := by
  cases c <;> rfl

theorem id_setInnerHTML (c : CNode) (s : String) : (c.setInnerHTML s).id = c.id := by
  cases c <;> rfl

theorem id_setId (c : CNode) (i : Nat) : (c.setId i).id = i := by
  cases c <;> rfl

theorem id_appendChildF (c cc : CNode) : (c.appendChildF cc).id = c.id := by
  cases c <;> rfl

theorem id_applyStyleText (s : CStyle) (c : CNode) : (applyStyleText s c).id = c.id := by
  unfold applyStyleText
  repeat' split
  all_goals simp [id_setAttr]

theorem id_appendStylePatch (c : CNode) (b : Bool) (seg : String) :
    (appendStylePatch c b seg).id = c.id := by
  unfold appendStylePatch
  split
  · simp [id_setAttr]
  · rfl

theorem id_cloneCSSStyleF (nn : SNode) (c : CNode) : (cloneCSSStyleF nn c).id = c.id := by
  unfold cloneCSSStyleF
  split
  · rfl
  · dsimp only
    split
    · simp [id_appendStylePatch, id_applyStyleText]
    · simp [id_appendStylePatch, id_applyStyleText]

/-! Both pruning claims need the pruning branch of cloneNode. -/

theorem cloneNodeM_pruned {env : Env} {options : Options} {node : SNode}
    (h : filterRejects options node = true) (c0 : Nat) :
    cloneNodeM env node options false c0 = (.ok none, c0, []) := by
  rw [cloneNodeM]
  simp [h, pureDef, CloneM.pure]

theorem cloneNodeM_rootCase_not_none (env : Env) (options : Options) (node : SNode) (c0 : Nat) :
    (cloneNodeM env node options true c0).1 ≠ .ok none := by
  rw [cloneNodeM]
  simp only [Bool.not_true, Bool.false_and, Bool.false_eq_true, if_false]
  intro hcontra
  rcases h1 : cloneSingleNode env node options c0 with ⟨r1, c1, l1⟩
  cases r1 with
  | error e =>
    rw [runBind_error h1] at hcontra
    simp at hcontra
  | ok a =>
    rcases h2 : cloneChildrenM env node a options c1 with ⟨r2, c2, l2⟩
    cases r2 with
    | error e =>
      rw [runBind_ok h1 (runBind_error h2)] at hcontra
      simp at hcontra
    | ok b =>
      rcases h3 : decorate env node b c2 with ⟨r3, c3, l3⟩
      cases r3 with
      | error e =>
        rw [runBind_ok h1 (runBind_ok h2 (runBind_error h3))] at hcontra
        simp at hcontra
      | ok d =>
        rw [runBind_ok h1 (runBind_ok h2 (runBind_ok h3 (runPure (some d) c3)))] at hcontra
        simp at hcontra

/-- Claim C1: a non-root node rejected by a present filter clones to null,
with no collaborator invocation, no allocation and no mutation (the empty
log and unchanged counter: no descendant is visited and nothing it could
contribute exists in any output), while the traversal root is never pruned
whatever the filter answers. -/
theorem claim1_filter_prunes_and_rootKept (env : Env) (options : Options) (node : SNode)
    (c0 : Nat) (f : SNode → Bool) (hf : options.filter = some f) :
    (f node = false → cloneNodeM env node options false c0 = (.ok none, c0, [])) ∧
    (cloneNodeM env node options true c0).1 ≠ .ok none := by
  constructor
  · intro hreject
    apply cloneNodeM_pruned
    simp [filterRejects, hf, hreject]
  · exact cloneNodeM_rootCase_not_none env options node c0

/-- Calling cloneNode with the optional isRoot argument omitted: JS passes
undefined, which is falsy, so the node is processed as a non-root node. -/
def cloneNodeOmittedRoot (env : Env) (node : SNode) (options : Options) :
    CloneM (Option CNode) :=
  cloneNodeM env node options false

/-- Claim C10: with isRoot omitted the node is treated as non-root, so a
present filter that rejects it makes even the top-level call return null;
the root-is-always-cloned guarantee needs an explicit isRoot = true. -/
theorem claim10_omitted_isroot (env : Env) (options : Options) (node : SNode) (c0 : Nat)
    (f : SNode → Bool) (hf : options.filter = some f) (hreject : f node = false) :
    (cloneNodeOmittedRoot env node options c0).1 = .ok none := by
  unfold cloneNodeOmittedRoot
  rw [cloneNodeM_pruned (by simp [filterRejects, hf, hreject]) c0]

/-! Concrete fixtures for witnesses and counterexamples. -/

def envW : Env :=
  ⟨fun _ => .ok ⟨"B", "image/png"⟩, fun _ => .ok (), fun _ => none,
    fun b m => "data:" ++ m ++ "," ++ b, fun _ c => c⟩

def optionsNoFilter : Options := ⟨none⟩

def optionsRejectAll : Options := ⟨some (fun _ => false)⟩

def spanNode : SNode := SNode.mk 3 SKind.element (some "SPAN") [] "" ⟨"", []⟩ [] none none

theorem claim1_witness :
    cloneNodeM envW spanNode optionsRejectAll false 7 = (.ok none, 7, []) ∧
    (cloneNodeM envW spanNode optionsRejectAll true 7).1 ≠ .ok none :=
  ⟨(claim1_filter_prunes_and_rootKept envW optionsRejectAll spanNode 7 (fun _ => false)
      rfl).1 rfl,
   (claim1_filter_prunes_and_rootKept envW optionsRejectAll spanNode 7 (fun _ => false)
      rfl).2⟩

theorem claim10_witness :
    (cloneNodeOmittedRoot envW spanNode optionsRejectAll 11).1 = .ok none :=
  claim10_omitted_isroot envW optionsRejectAll spanNode 11 (fun _ => false) rfl rfl

/-! Child traversal: the sequential-order characterization. -/

theorem appendAll_nil (c : CNode) : appendAll c [] = c := by
  cases c with
  | mk i e t a nv h cs => simp [appendAll, CNode.setChildren, CNode.children]

theorem appendAll_cons_some (c cc : CNode) (rs : List (Option CNode)) :
    appendAll c (some cc :: rs) = appendAll (c.appendChildF cc) rs := by
  cases c with
  | mk i e t a nv h cs =>
    simp [appendAll, CNode.setChildren, CNode.children, CNode.appendChildF,
      List.reduceOption_cons_of_some]

theorem appendAll_cons_none (c : CNode) (rs : List (Option CNode)) :
    appendAll c (none :: rs) = appendAll c rs := by
  cases c with
  | mk i e t a nv h cs =>
    simp [appendAll, CNode.setChildren, CNode.children, List.reduceOption_cons_of_none]

/-- The fold of cloneChildren equals the reference sequential runner: the
children are cloned strictly in order (the counter of child i feeds child
i+1), a null result contributes nothing, the non-null results are appended
in order, and an error aborts the chain with the same counter. -/
theorem foldChildrenM_runSeq (env : Env) (options : Options) :
    ∀ (cs : List SNode) (cloned : CNode) (c0 : Nat), ∃ lw : List LogEntry,
      foldChildrenM env cs cloned options c0 =
        (((runSeq env options cs c0).1).map (appendAll cloned),
         (runSeq env options cs c0).2.1, lw) := by
  intro cs
  induction cs with
  | nil =>
    intro cloned c0
    refine ⟨[], ?_⟩
    simp [foldChildrenM, runSeq, pureDef, CloneM.pure, appendAll_nil, Except.map]
  | cons child rest ih =>
    intro cloned c0
    rw [foldChildrenM, runSeq]
    rcases hchild : cloneNodeM env child options false c0 with ⟨r0, c1, l1⟩
    cases r0 with
    | error e =>
      refine ⟨l1, ?_⟩
      rw [runBind_error hchild, runBind_error hchild]
      simp [Except.map]
    | ok r =>
      cases r with
      | some cc =>
        have hmut : mutate cloned (fun cl => cl.appendChildF cc) c1 =
            (.ok (cloned.appendChildF cc), c1, [LogEntry.write cloned.id]) := rfl
        obtain ⟨lw2, hIH⟩ := ih (cloned.appendChildF cc) c1
        rcases hrs : runSeq env options rest c1 with ⟨rr, cr, lr⟩
        rw [hrs] at hIH
        refine ⟨l1 ++ ([LogEntry.write cloned.id] ++ lw2), ?_⟩
        rw [runBind_ok hchild (runBind_ok hmut hIH)]
        cases rr with
        | error e2 =>
          rw [runBind_ok hchild (runBind_error hrs)]
          try simp [Except.map]
        | ok rs =>
          rw [runBind_ok hchild (runBind_ok hrs (runPure (some cc :: rs) cr))]
          try simp [Except.map, appendAll_cons_some]
      | none =>
        have hpure : (pure cloned : CloneM CNode) c1 = (.ok cloned, c1, []) := rfl
        obtain ⟨lw2, hIH⟩ := ih cloned c1
        rcases hrs : runSeq env options rest c1 with ⟨rr, cr, lr⟩
        rw [hrs] at hIH
        refine ⟨l1 ++ ([] ++ lw2), ?_⟩
        rw [runBind_ok hchild (runBind_ok hpure hIH)]
        cases rr with
        | error e2 =>
          rw [runBind_ok hchild (runBind_error hrs)]
          try simp [Except.map]
        | ok rs =>
          rw [runBind_ok hchild (runBind_ok hrs (runPure (none :: rs) cr))]
          try simp [Except.map, appendAll_cons_none]

/-- Claim C2: when the traversal is not skipped, the result of
cloneChildren is exactly the sequential reference run over the effective
child list: each child is fully cloned before the next begins (the final
counter agrees with the threaded counter of the sequential run), a child
whose clone is null is omitted without affecting its siblings, and the
clone ends with its original children followed by the non-null results in
effective source order. -/
theorem claim2_sequential_child_order (env : Env) (options : Options) (nativeNode : SNode)
    (clonedNode : CNode) (c0 : Nat)
    (hrun : ((effectiveChildren nativeNode).length == 0 || nativeNode.isVideo) = false) :
    (cloneChildrenM env nativeNode clonedNode options c0).1 =
      ((runSeq env options (effectiveChildren nativeNode) c0).1).map (appendAll clonedNode) ∧
    (cloneChildrenM env nativeNode clonedNode options c0).2.1 =
      (runSeq env options (effectiveChildren nativeNode) c0).2.1 := by
  rw [cloneChildrenM]
  simp only [hrun, Bool.false_eq_true, if_false]
  obtain ⟨lw, h⟩ := foldChildrenM_runSeq env options (effectiveChildren nativeNode)
    clonedNode c0
  rw [h]
  exact ⟨rfl, rfl⟩

/-- Skipping branch of cloneChildren. -/
theorem cloneChildrenM_skip (env : Env) (options : Options) (nativeNode : SNode)
    (clonedNode : CNode) (c0 : Nat)
    (h : ((effectiveChildren nativeNode).length == 0 || nativeNode.isVideo) = true) :
    cloneChildrenM env nativeNode clonedNode options c0 = (.ok clonedNode, c0, []) := by
  rw [cloneChildrenM]
  simp only [h, if_true]
  rfl

/-- A fold over children that are all rejected by the filter leaves the
clone, the counter and the log unchanged. -/
theorem foldChildrenM_all_pruned (env : Env) (options : Options) :
    ∀ (cs : List SNode) (cloned : CNode) (c0 : Nat),
      (∀ child ∈ cs, filterRejects options child = true) →
      foldChildrenM env cs cloned options c0 = (.ok cloned, c0, []) := by
  intro cs
  induction cs with
  | nil =>
    intro cloned c0 _
    simp [foldChildrenM, pureDef, CloneM.pure]
  | cons child rest ih =>
    intro cloned c0 hall
    rw [foldChildrenM]
    have hchild := @cloneNodeM_pruned env options child
      (hall child (List.mem_cons_self child rest)) c0
    have hrest := ih cloned c0 (fun x hx => hall x (List.mem_cons_of_mem child hx))
    have hinner : ((match (none : Option CNode) with
        | some cc => mutate cloned (fun cl => cl.appendChildF cc)
        | none => pure cloned) : CloneM CNode) c0 = (.ok cloned, c0, []) := rfl
    rw [runBind_ok hchild (runBind_ok hinner hrest)]
    rfl

/-- Claim C6 (amended): cloneChildren draws from exactly one effective
child source — the assigned (projected) nodes when the node is a
slot-style projection point, else the shadow-subtree children when a
shadow subtree is attached, else the literal children, never a mix — and
returns the clone unchanged, with no step performed, whenever that list is
empty or the node is video-kind. (The converse direction of the original
claim fails: a nonempty child list whose children are all pruned by the
filter also returns the clone unchanged.) -/
theorem claim6_effective_children_amended (native : SNode) :
    (∀ l, native.isSlotElement = true → native.assigned = some l →
      effectiveChildren native = l) ∧
    (∀ l, (native.isSlotElement && native.assigned.isSome) = false →
      native.shadowChildren = some l → effectiveChildren native = l) ∧
    ((native.isSlotElement && native.assigned.isSome) = false →
      native.shadowChildren = none → effectiveChildren native = native.children) ∧
    (∀ (env : Env) (options : Options) (cloned : CNode) (c0 : Nat),
      ((effectiveChildren native).length == 0 || native.isVideo) = true →
      cloneChildrenM env native cloned options c0 = (.ok cloned, c0, [])) := by
  refine ⟨?_, ?_, ?_, ?_⟩
  · intro l h1 h2
    simp [effectiveChildren, h1, h2]
  · intro l hcond hsh
    simp [effectiveChildren, hcond, hsh]
  · intro hcond hsh
    simp [effectiveChildren, hcond, hsh]
  · intro env options cloned c0 hguard
    exact cloneChildrenM_skip env options native cloned c0 hguard

def prunedChildParent : SNode :=
  SNode.mk 1 SKind.element (some "DIV") [] "" ⟨"", []⟩ [spanNode] none none

def divClone : CNode := CNode.mk 10 true (some "DIV") [] "" "" []

/-- Claim C6 counterexample: a non-video node with a nonempty effective
child list whose only child is pruned by the filter also returns the
clone unchanged, so the clone is returned unchanged in a case where the
list is neither empty nor the node video-kind — the claimed "exactly
when" fails. -/
theorem claim6_counterexample :
    cloneChildrenM envW prunedChildParent divClone optionsRejectAll 20 =
      (.ok divClone, 20, []) ∧
    ((effectiveChildren prunedChildParent).length == 0 ||
      prunedChildParent.isVideo) = false := by
  constructor
  · rw [cloneChildrenM]
    have hguard : (((effectiveChildren prunedChildParent).length == 0 ||
        prunedChildParent.isVideo) = false) := by decide
    simp only [hguard, Bool.false_eq_true, if_false]
    exact foldChildrenM_all_pruned envW optionsRejectAll _ divClone 20
      (fun child _ => rfl)
  · decide

def spanNode2 : SNode := SNode.mk 4 SKind.element (some "SPAN") [] "" ⟨"", []⟩ [] none none

def twoKidsParent : SNode :=
  SNode.mk 5 SKind.element (some "DIV") [] "" ⟨"", []⟩ [spanNode, spanNode2] none none

theorem claim2_witness :
    (cloneChildrenM envW twoKidsParent divClone optionsNoFilter 30).1 =
      ((runSeq envW optionsNoFilter (effectiveChildren twoKidsParent) 30).1).map
        (appendAll divClone) ∧
    (cloneChildrenM envW twoKidsParent divClone optionsNoFilter 30).2.1 =
      (runSeq envW optionsNoFilter (effectiveChildren twoKidsParent) 30).2.1 :=
  claim2_sequential_child_order envW optionsNoFilter twoKidsParent divClone 30 (by decide)

def slotParent : SNode :=
  SNode.mk 6 SKind.element (some "slot") [] "" ⟨"", []⟩ [] none (some [spanNode])

def videoNodeW : SNode :=
  SNode.mk 8 (SKind.video "") (some "VIDEO") [] "" ⟨"", []⟩ [spanNode2] none none

theorem claim6_witness :
    effectiveChildren slotParent = [spanNode] ∧
    cloneChildrenM envW videoNodeW divClone optionsNoFilter 40 = (.ok divClone, 40, []) :=
  ⟨(claim6_effective_children_amended slotParent).1 [spanNode] (by decide) rfl,
   (claim6_effective_children_amended videoNodeW).2.2.2 envW optionsNoFilter divClone 40
     (by decide)⟩

/-! Type-specific cloning: canvas, video, form values. -/

/-- Claim C3: a canvas node whose export yields the empty-canvas sentinel
value clones as a shallow childless structural clone — zero children, the
markup attributes only, no embedded image content — while any other
export value is decoded asynchronously into a fresh image-kind node
carrying the exported data URL as its source, which becomes the clone. -/
theorem claim3_canvas_clone (env : Env) (options : Options) (node : SNode) (d : String)
    (c0 : Nat) (hk : node.kind = SKind.canvas d) :
    (d = "data:," →
      ∃ c : CNode, cloneSingleNode env node options c0 = (.ok c, c0 + 1, []) ∧
        c.children = [] ∧ c.isElement = true ∧ c.tagName = node.tagName ∧
        c.attrs = node.attrs ∧ c.innerHTML = "") ∧
    (d ≠ "data:," → env.decodeImage d = .ok () →
      cloneSingleNode env node options c0 =
        (.ok (imageNode c0 d), c0 + 1, [LogEntry.imageCall d])) := by
  have hred : cloneSingleNode env node options = cloneCanvasElement env node := by
    unfold cloneSingleNode
    rw [hk]
  have hurl : node.toDataURL = d := by
    unfold SNode.toDataURL
    rw [hk]
  constructor
  · intro hd
    refine ⟨CNode.mk c0 node.isElementKind node.tagName node.attrs
      (match node.kind with | SKind.textNode => node.value | _ => "") "" [],
      ?_, rfl, ?_, rfl, rfl, rfl⟩
    · rw [hred]
      unfold cloneCanvasElement
      rw [hurl, hd]
      simp only [beq_self_eq_true, if_true]
      rfl
    · show node.isElementKind = true
      unfold SNode.isElementKind
      rw [hk]
  · intro hd hdec
    have hbeq : (d == "data:,") = false := beq_eq_false_iff_ne.mpr hd
    rw [hred]
    unfold cloneCanvasElement
    rw [hurl, hbeq]
    simp only [Bool.false_eq_true, if_false]
    unfold createImage
    rw [hdec]

/-- Claim C4: a video node with a nonempty poster clones as an image-kind
node decoded from the data URL built (by the collaborator) from the
fetched poster blob, with the MIME type resolved from the poster URL when
that yields a usable value and otherwise the content type reported by the
fetch; a video node with an empty poster takes the default shallow
structural clone path instead. -/
theorem claim4_video_poster_clone (env : Env) (options : Options) (node : SNode) (p : String)
    (c0 : Nat) (hk : node.kind = SKind.video p) :
    (p ≠ "" → ∀ b : Blob, env.fetchBlob p = .ok b →
      env.decodeImage (env.makeDataUrl b.blob (jsOrElse (env.getMimeType p) b.contentType)) =
        .ok () →
      cloneSingleNode env node options c0 =
        (.ok (imageNode c0 (env.makeDataUrl b.blob (jsOrElse (env.getMimeType p) b.contentType))),
         c0 + 1,
         [LogEntry.fetchCall p,
          LogEntry.imageCall (env.makeDataUrl b.blob (jsOrElse (env.getMimeType p) b.contentType))])) ∧
    (p = "" → cloneSingleNode env node options c0 = shallowClone node c0) := by
  have hposter : node.poster = p := by
    unfold SNode.poster
    rw [hk]
  constructor
  · intro hp b hfetch hdec
    have hb : (p == "") = false := beq_eq_false_iff_ne.mpr hp
    have hred : cloneSingleNode env node options = cloneVideoElement env node options := by
      unfold cloneSingleNode
      rw [hk]
      simp only [hb, Bool.false_eq_true, if_false]
    rw [hred]
    unfold cloneVideoElement
    rw [hposter]
    have hfetchrun : callFetch env p c0 = (.ok b, c0, [LogEntry.fetchCall p]) := by
      unfold callFetch
      rw [hfetch]
    have himgrun :
        createImage env (env.makeDataUrl b.blob (jsOrElse (env.getMimeType p) b.contentType)) c0 =
        (.ok (imageNode c0 (env.makeDataUrl b.blob (jsOrElse (env.getMimeType p) b.contentType))),
         c0 + 1,
         [LogEntry.imageCall (env.makeDataUrl b.blob (jsOrElse (env.getMimeType p) b.contentType))]) := by
      unfold createImage
      rw [hdec]
    exact runBind_ok hfetchrun himgrun
  · intro hp
    unfold cloneSingleNode
    rw [hk, hp]
    simp only [beq_self_eq_true, if_true]

/-- Claim C7: on a textarea node the decoration writes the live current
value as the innerHTML content of the clone; on an input node it writes
the live current value as the value attribute of the clone; for every
other node kind value materialization is a no-op. -/
theorem claim7_input_value (native : SNode) (clone : CNode) (c0 : Nat) :
    (native.kind = SKind.textarea →
      cloneInputValueM native clone c0 =
        (.ok (clone.setInnerHTML native.value), c0, [LogEntry.write clone.id]) ∧
      (clone.setInnerHTML native.value).innerHTML = native.value) ∧
    (native.kind = SKind.input →
      cloneInputValueM native clone c0 =
        (.ok (clone.setAttr "value" native.value), c0, [LogEntry.write clone.id]) ∧
      (clone.setAttr "value" native.value).getAttr? "value" = some native.value) ∧
    (native.kind ≠ SKind.textarea → native.kind ≠ SKind.input →
      cloneInputValueM native clone c0 = (.ok clone, c0, [])) := by
  refine ⟨?_, ?_, ?_⟩
  · intro hk
    have hta : native.isTextarea = true := by
      unfold SNode.isTextarea
      rw [hk]
    have hin : native.isInput = false := by
      unfold SNode.isInput
      rw [hk]
    constructor
    · unfold cloneInputValueM
      rw [hta, hin]
      simp only [if_true, Bool.false_eq_true, if_false]
      have h1 : mutate clone (fun c => c.setInnerHTML native.value) c0 =
          (.ok (clone.setInnerHTML native.value), c0, [LogEntry.write clone.id]) := rfl
      have h2 : (pure (clone.setInnerHTML native.value) : CloneM CNode) c0 =
          (.ok (clone.setInnerHTML native.value), c0, []) := rfl
      rw [runBind_ok h1 h2]
      simp
    · cases clone with
      | mk i e t a nv h cs => rfl
  · intro hk
    have hta : native.isTextarea = false := by
      unfold SNode.isTextarea
      rw [hk]
    have hin : native.isInput = true := by
      unfold SNode.isInput
      rw [hk]
    constructor
    · unfold cloneInputValueM
      rw [hta, hin]
      simp only [if_true, Bool.false_eq_true, if_false]
      have h1 : (pure clone : CloneM CNode) c0 = (.ok clone, c0, []) := rfl
      have h2 : mutate clone (fun c => c.setAttr "value" native.value) c0 =
          (.ok (clone.setAttr "value" native.value), c0, [LogEntry.write clone.id]) := rfl
      rw [runBind_ok h1 h2]
      simp
    · exact getAttr?_setAttr_self clone "value" native.value
  · intro hkta hkin
    have hta : native.isTextarea = false := by
      unfold SNode.isTextarea
      cases hknd : native.kind <;> simp_all
    have hin : native.isInput = false := by
      unfold SNode.isInput
      cases hknd : native.kind <;> simp_all
    unfold cloneInputValueM
    rw [hta, hin]
    simp only [Bool.false_eq_true, if_false]
    have h1 : (pure clone : CloneM CNode) c0 = (.ok clone, c0, []) := rfl
    rw [runBind_ok h1 h1]
    rfl

/-! Witness fixtures for the type-specific cloners. -/

def canvasBlank : SNode :=
  SNode.mk 12 (SKind.canvas "data:,") (some "CANVAS") [("width", "300")] "" ⟨"", []⟩ [] none none

def canvasDrawn : SNode :=
  SNode.mk 13 (SKind.canvas "data:image/png;base64,AA") (some "CANVAS") [] "" ⟨"", []⟩ [] none none

def videoPosterNode : SNode :=
  SNode.mk 14 (SKind.video "poster.png") (some "VIDEO") [] "" ⟨"", []⟩ [] none none

def textareaNodeW : SNode :=
  SNode.mk 15 SKind.textarea (some "TEXTAREA") [] "hello" ⟨"", []⟩ [] none none

def inputNodeW : SNode :=
  SNode.mk 16 SKind.input (some "INPUT") [("value", "old")] "42" ⟨"", []⟩ [] none none

def elementCloneW : CNode := CNode.mk 50 true (some "TEXTAREA") [] "" "" []

theorem claim3_witness :
    (∃ c : CNode, cloneSingleNode envW canvasBlank optionsNoFilter 0 = (.ok c, 1, []) ∧
      c.children = [] ∧ c.isElement = true ∧ c.tagName = canvasBlank.tagName ∧
      c.attrs = canvasBlank.attrs ∧ c.innerHTML = "") ∧
    cloneSingleNode envW canvasDrawn optionsNoFilter 0 =
      (.ok (imageNode 0 "data:image/png;base64,AA"), 1,
       [LogEntry.imageCall "data:image/png;base64,AA"]) :=
  ⟨(claim3_canvas_clone envW optionsNoFilter canvasBlank "data:," 0 rfl).1 rfl,
   (claim3_canvas_clone envW optionsNoFilter canvasDrawn "data:image/png;base64,AA" 0 rfl).2
     (by decide) rfl⟩

theorem claim4_witness :
    cloneSingleNode envW videoPosterNode optionsNoFilter 0 =
      (.ok (imageNode 0 (envW.makeDataUrl "B" (jsOrElse (envW.getMimeType "poster.png") "image/png"))),
       1,
       [LogEntry.fetchCall "poster.png",
        LogEntry.imageCall (envW.makeDataUrl "B" (jsOrElse (envW.getMimeType "poster.png") "image/png"))]) ∧
    cloneSingleNode envW videoNodeW optionsNoFilter 2 = shallowClone videoNodeW 2 :=
  ⟨(claim4_video_poster_clone envW optionsNoFilter videoPosterNode "poster.png" 0 rfl).1
     (by decide) ⟨"B", "image/png"⟩ rfl rfl,
   (claim4_video_poster_clone envW optionsNoFilter videoNodeW "" 2 rfl).2 rfl⟩

theorem claim7_witness :
    (cloneInputValueM textareaNodeW elementCloneW 9 =
      (.ok (elementCloneW.setInnerHTML "hello"), 9, [LogEntry.write 50]) ∧
     (elementCloneW.setInnerHTML "hello").innerHTML = "hello") ∧
    (cloneInputValueM inputNodeW elementCloneW 9 =
      (.ok (elementCloneW.setAttr "value" "42"), 9, [LogEntry.write 50]) ∧
     (elementCloneW.setAttr "value" "42").getAttr? "value" = some "42") ∧
    cloneInputValueM spanNode elementCloneW 9 = (.ok elementCloneW, 9, []) :=
  ⟨(claim7_input_value textareaNodeW elementCloneW 9).1 rfl,
   (claim7_input_value inputNodeW elementCloneW 9).2.1 rfl,
   (claim7_input_value spanNode elementCloneW 9).2.2 (by decide) (by decide)⟩

/-! The paragraph width quirk. -/

theorem widthPatchValue_ten95 : widthPatchValue "10.95px" = 12 := by
  have hp : parseFloatParts "10.95px" = (1095, 2) := by decide
  unfold widthPatchValue parseFloat
  rw [hp]
  dsimp only
  have hfl : ⌊((1095 : Nat) : ℚ) / (10 : ℚ) ^ (2 : Nat)⌋ = (10 : ℤ) := by
    rw [Int.floor_eq_iff]
    norm_num
  have hfr : Int.fract (((1095 : Nat) : ℚ) / (10 : ℚ) ^ (2 : Nat)) = 95 / 100 := by
    unfold Int.fract
    rw [hfl]
    norm_num
  rw [hfr, if_pos (by norm_num), Int.ceil_eq_iff]
  constructor <;> norm_num

theorem widthPatchValue_ten5 : widthPatchValue "10.5px" = 11 := by
  have hp : parseFloatParts "10.5px" = (105, 1) := by decide
  unfold widthPatchValue parseFloat
  rw [hp]
  dsimp only
  have hfl : ⌊((105 : Nat) : ℚ) / (10 : ℚ) ^ (1 : Nat)⌋ = (10 : ℤ) := by
    rw [Int.floor_eq_iff]
    norm_num
  have hfr : Int.fract (((105 : Nat) : ℚ) / (10 : ℚ) ^ (1 : Nat)) = 5 / 10 := by
    unfold Int.fract
    rw [hfl]
    norm_num
  rw [hfr, if_neg (by norm_num), Int.ceil_eq_iff]
  constructor <;> norm_num

theorem widthPatchValue_ten89 : widthPatchValue "10.89px" = 11 := by
  have hp : parseFloatParts "10.89px" = (1089, 2) := by decide
  unfold widthPatchValue parseFloat
  rw [hp]
  dsimp only
  have hfl : ⌊((1089 : Nat) : ℚ) / (10 : ℚ) ^ (2 : Nat)⌋ = (10 : ℤ) := by
    rw [Int.floor_eq_iff]
    norm_num
  have hfr : Int.fract (((1089 : Nat) : ℚ) / (10 : ℚ) ^ (2 : Nat)) = 89 / 100 := by
    unfold Int.fract
    rw [hfl]
    norm_num
  rw [hfr, if_neg (by norm_num), Int.ceil_eq_iff]
  constructor <;> norm_num

theorem getAttrJS_setAttr_self (c : CNode) (n v : String) :
    (c.setAttr n v).getAttrJS n = v := by
  unfold CNode.getAttrJS
  rw [getAttr?_setAttr_self]

theorem appendStylePatch_false (c : CNode) (seg : String) :
    appendStylePatch c false seg = c := rfl

theorem appendStylePatch_true (c : CNode) (seg : String) :
    appendStylePatch c true seg = c.setAttr "style" (c.getAttrJS "style" ++ seg) := rfl

/-- On a paragraph element clone whose computed style text is a nonempty
serialized form, with the other quirk patches quiescent, the width patch
appends the patched width to the style attribute text. -/
theorem cloneCSSStyleF_width_quirk (native : SNode) (clone : CNode) (s w : String)
    (hP : native.tagName = some "P") (hel : clone.isElement = true)
    (hcss : native.style.cssText = s) (hs : s ≠ "")
    (hwbc : native.style.getPropertyValue "-webkit-background-clip" = "border-box")
    (hffs : native.style.getPropertyValue "font-feature-settings" = "\"kern\"")
    (hai : native.style.getPropertyValue "align-items" = "normal")
    (hpr : native.style.getPropertyValue "perspective" = "none")
    (hw : native.style.getPropertyValue "width" = w)
    (hdot : jsIncludesChar w '.' = true) :
    (cloneCSSStyleF native clone).getAttr? "style" =
      some (s ++ (";width:" ++ toString (widthPatchValue w) ++ "px;")) := by
  have hsb : (s == "") = false := beq_eq_false_iff_ne.mpr hs
  have happly : applyStyleText native.style clone = clone.setAttr "style" s := by
    unfold applyStyleText
    rw [hcss, hsb]
    simp
  unfold cloneCSSStyleF
  rw [hel]
  simp only [Bool.not_true, Bool.false_eq_true, if_false]
  simp only [happly, hwbc, hffs, hai, hpr, hP, hw, hdot, beq_self_eq_true, Bool.not_true,
    appendStylePatch_false, appendStylePatch_true, if_true, getAttrJS_setAttr_self]
  exact getAttr?_setAttr_self (clone.setAttr "style" s) "style"
    (s ++ (";width:" ++ toString (widthPatchValue w) ++ "px;"))

def pNodeQuirk : SNode :=
  SNode.mk 17 SKind.element (some "P") [] ""
    ⟨"x", [("width", "10.95px", ""), ("-webkit-background-clip", "border-box", ""),
      ("font-feature-settings", "\"kern\"", ""), ("align-items", "normal", ""),
      ("perspective", "none", "")]⟩ [] none none

def pCloneQuirk : CNode := CNode.mk 60 true (some "P") [] "" "" []

/-- Claim C5 counterexample: a paragraph whose computed width is
"10.95px" is patched to inline width 12px, not the claimed 11px — the
fractional part 0.95 exceeds 0.9, so the code first adds one full unit
(11.95) and then takes the ceiling (12). -/
theorem claim5_counterexample :
    (cloneCSSStyleF pNodeQuirk pCloneQuirk).getAttr? "style" = some "x;width:12px;" ∧
    widthPatchValue "10.95px" = 12 ∧ widthPatchValue "10.95px" ≠ 11 := by
  refine ⟨?_, widthPatchValue_ten95, by rw [widthPatchValue_ten95]; decide⟩
  have h := cloneCSSStyleF_width_quirk pNodeQuirk pCloneQuirk "x" "10.95px"
    rfl rfl rfl (by decide) rfl rfl rfl rfl rfl (by decide)
  rw [h, widthPatchValue_ten95]
  decide

/-- Claim C5 (amended): on paragraph-kind nodes whose computed width
carries a fractional pixel component, the patch adds one full unit when
the fractional part exceeds 0.9 and then takes the ceiling, so computed
width "10.95px" yields patched inline width "12px", while "10.5px" and
"10.89px" yield "11px". -/
theorem claim5_width_patch_amended (native : SNode) (clone : CNode) (s w : String)
    (hP : native.tagName = some "P") (hel : clone.isElement = true)
    (hcss : native.style.cssText = s) (hs : s ≠ "")
    (hwbc : native.style.getPropertyValue "-webkit-background-clip" = "border-box")
    (hffs : native.style.getPropertyValue "font-feature-settings" = "\"kern\"")
    (hai : native.style.getPropertyValue "align-items" = "normal")
    (hpr : native.style.getPropertyValue "perspective" = "none")
    (hw : native.style.getPropertyValue "width" = w)
    (hdot : jsIncludesChar w '.' = true) :
    (cloneCSSStyleF native clone).getAttr? "style" =
      some (s ++ (";width:" ++ toString (widthPatchValue w) ++ "px;")) ∧
    widthPatchValue "10.95px" = 12 ∧ widthPatchValue "10.5px" = 11 ∧
    widthPatchValue "10.89px" = 11 :=
  ⟨cloneCSSStyleF_width_quirk native clone s w hP hel hcss hs hwbc hffs hai hpr hw hdot,
   widthPatchValue_ten95, widthPatchValue_ten5, widthPatchValue_ten89⟩

def pNodeHalf : SNode :=
  SNode.mk 18 SKind.element (some "P") [] ""
    ⟨"x", [("width", "10.5px", ""), ("-webkit-background-clip", "border-box", ""),
      ("font-feature-settings", "\"kern\"", ""), ("align-items", "normal", ""),
      ("perspective", "none", "")]⟩ [] none none

theorem claim5_witness :
    (cloneCSSStyleF pNodeHalf pCloneQuirk).getAttr? "style" =
      some ("x" ++ (";width:" ++ toString (widthPatchValue "10.5px") ++ "px;")) ∧
    widthPatchValue "10.95px" = 12 ∧ widthPatchValue "10.5px" = 11 ∧
    widthPatchValue "10.89px" = 11 :=
  claim5_width_patch_amended pNodeHalf pCloneQuirk "x" "10.5px"
    rfl rfl rfl (by decide) rfl rfl rfl rfl rfl (by decide)

/-! Run specifications of the non-recursive pipeline steps, used by the
claims about write targets and error propagation. -/

theorem shallowClone_spec (node : SNode) (c0 : Nat) :
    c0 ≤ (shallowClone node c0).2.1 ∧
    (∀ t, ¬ LogEntry.write t ∈ (shallowClone node c0).2.2) ∧
    (∀ a, (shallowClone node c0).1 = .ok a → a.id = c0) := by
  refine ⟨Nat.le_succ c0, by simp [shallowClone], ?_⟩
  intro a ha
  simp only [shallowClone] at ha
  rw [Except.ok.injEq] at ha
  subst ha
  rfl

theorem createImage_spec (env : Env) (d : String) (c0 : Nat) :
    c0 ≤ (createImage env d c0).2.1 ∧
    (∀ t, ¬ LogEntry.write t ∈ (createImage env d c0).2.2) ∧
    (∀ a, (createImage env d c0).1 = .ok a → a.id = c0) := by
  unfold createImage
  cases hd : env.decodeImage d with
  | ok u =>
    refine ⟨Nat.le_succ c0, by simp, ?_⟩
    intro a ha
    dsimp only at ha
    rw [Except.ok.injEq] at ha
    subst ha
    rfl
  | error e =>
    refine ⟨Nat.le_refl c0, by simp, ?_⟩
    intro a ha
    dsimp only at ha
    exact absurd ha (by simp)

theorem cloneVideoElement_spec (env : Env) (node : SNode) (options : Options) (c0 : Nat) :
    c0 ≤ (cloneVideoElement env node options c0).2.1 ∧
    (∀ t, ¬ LogEntry.write t ∈ (cloneVideoElement env node options c0).2.2) ∧
    (∀ a, (cloneVideoElement env node options c0).1 = .ok a → a.id = c0) := by
  unfold cloneVideoElement
  cases hf : env.fetchBlob node.poster with
  | error e =>
    have hcf : callFetch env node.poster c0 =
        (.error e, c0, [LogEntry.fetchCall node.poster]) := by
      unfold callFetch
      rw [hf]
    rw [runBind_error hcf]
    refine ⟨Nat.le_refl c0, by simp, ?_⟩
    intro a ha
    exact absurd ha (by simp)
  | ok b =>
    have hcf : callFetch env node.poster c0 =
        (.ok b, c0, [LogEntry.fetchCall node.poster]) := by
      unfold callFetch
      rw [hf]
    rcases hci : createImage env
        (env.makeDataUrl b.blob (jsOrElse (env.getMimeType node.poster) b.contentType)) c0
      with ⟨r2, c2, l2⟩
    have hspec := createImage_spec env
      (env.makeDataUrl b.blob (jsOrElse (env.getMimeType node.poster) b.contentType)) c0
    rw [hci] at hspec
    rw [runBind_ok hcf hci]
    refine ⟨hspec.1, ?_, hspec.2.2⟩
    intro t ht
    rw [List.mem_append] at ht
    cases ht with
    | inl hin => simp at hin
    | inr hin => exact hspec.2.1 t hin

theorem cloneSingleNode_spec (env : Env) (node : SNode) (options : Options) (c0 : Nat) :
    c0 ≤ (cloneSingleNode env node options c0).2.1 ∧
    (∀ t, ¬ LogEntry.write t ∈ (cloneSingleNode env node options c0).2.2) ∧
    (∀ a, (cloneSingleNode env node options c0).1 = .ok a → a.id = c0) := by
  unfold cloneSingleNode
  cases hk : node.kind with
  | canvas d =>
    dsimp only
    unfold cloneCanvasElement
    split
    · exact shallowClone_spec node c0
    · exact createImage_spec env node.toDataURL c0
  | video p =>
    dsimp only
    split
    · exact shallowClone_spec node c0
    · exact cloneVideoElement_spec env node options c0
  | textarea => exact shallowClone_spec node c0
  | input => exact shallowClone_spec node c0
  | element => exact shallowClone_spec node c0
  | textNode => exact shallowClone_spec node c0

theorem cloneInputValueM_spec (native : SNode) (cl : CNode) (c0 : Nat) :
    (cloneInputValueM native cl c0).2.1 = c0 ∧
    (∀ x ∈ (cloneInputValueM native cl c0).2.2, x = LogEntry.write cl.id) ∧
    (∃ a, (cloneInputValueM native cl c0).1 = .ok a ∧ a.id = cl.id) := by
  unfold cloneInputValueM
  cases ht : native.isTextarea <;> cases hi : native.isInput <;>
    simp only [Bool.false_eq_true, if_false, if_true]
  · have hrun : ((pure cl : CloneM CNode) >>= fun c1 =>
        (pure c1 : CloneM CNode)) c0 = (.ok cl, c0, []) := rfl
    rw [hrun]
    exact ⟨rfl, by simp, cl, rfl, rfl⟩
  · have hrun : ((pure cl : CloneM CNode) >>= fun c1 =>
        mutate c1 (fun c => c.setAttr "value" native.value)) c0 =
        (.ok (cl.setAttr "value" native.value), c0, [LogEntry.write cl.id]) := rfl
    rw [hrun]
    exact ⟨rfl, by simp, cl.setAttr "value" native.value, rfl, id_setAttr cl "value" native.value⟩
  · have hrun : (mutate cl (fun c => c.setInnerHTML native.value) >>= fun c1 =>
        (pure c1 : CloneM CNode)) c0 =
        (.ok (cl.setInnerHTML native.value), c0, [LogEntry.write cl.id]) := rfl
    rw [hrun]
    exact ⟨rfl, by simp, cl.setInnerHTML native.value, rfl, id_setInnerHTML cl native.value⟩
  · have hrun : (mutate cl (fun c => c.setInnerHTML native.value) >>= fun c1 =>
        mutate c1 (fun c => c.setAttr "value" native.value)) c0 =
        (.ok ((cl.setInnerHTML native.value).setAttr "value" native.value), c0,
         [LogEntry.write cl.id, LogEntry.write (cl.setInnerHTML native.value).id]) := rfl
    rw [hrun]
    refine ⟨rfl, ?_, (cl.setInnerHTML native.value).setAttr "value" native.value, rfl, ?_⟩
    · intro x hx
      rw [List.mem_cons, List.mem_singleton] at hx
      cases hx with
      | inl h => exact h
      | inr h => rw [h, id_setInnerHTML]
    · rw [id_setAttr, id_setInnerHTML]

theorem decorate_spec (env : Env) (native : SNode) (cl : CNode) (c0 : Nat) :
    (decorate env native cl c0).2.1 = c0 ∧
    (∀ x ∈ (decorate env native cl c0).2.2, x = LogEntry.write cl.id) ∧
    (∃ a, (decorate env native cl c0).1 = .ok a ∧ a.id = cl.id) := by
  unfold decorate
  split
  · exact ⟨rfl, by simp [pureDef, CloneM.pure], cl, rfl, rfl⟩
  · rename_i hel
    have hel2 : cl.isElement = true := by simp_all
    have hcss : cloneCSSStyleM native cl c0 =
        (.ok (cloneCSSStyleF native cl), c0, [LogEntry.write cl.id]) := by
      unfold cloneCSSStyleM
      rw [hel2]
      rfl
    have hpseudo : clonePseudoM env native (cloneCSSStyleF native cl) c0 =
        (.ok ((env.pseudo native (cloneCSSStyleF native cl)).setId (cloneCSSStyleF native cl).id),
         c0, [LogEntry.write (cloneCSSStyleF native cl).id]) := rfl
    rcases hinput : cloneInputValueM native
        ((env.pseudo native (cloneCSSStyleF native cl)).setId (cloneCSSStyleF native cl).id) c0
      with ⟨r3, c3, l3⟩
    have hispec := cloneInputValueM_spec native
      ((env.pseudo native (cloneCSSStyleF native cl)).setId (cloneCSSStyleF native cl).id) c0
    rw [hinput] at hispec
    obtain ⟨a3, ha3, haid⟩ := hispec.2.2
    have hpure : (pure a3 : CloneM CNode) c3 = (.ok a3, c3, []) := rfl
    have hrest : (cloneInputValueM native
        ((env.pseudo native (cloneCSSStyleF native cl)).setId (cloneCSSStyleF native cl).id) >>=
          fun c => (pure c : CloneM CNode)) c0 = (.ok a3, c3, l3 ++ []) := by
      have h3 : cloneInputValueM native
          ((env.pseudo native (cloneCSSStyleF native cl)).setId (cloneCSSStyleF native cl).id) c0 =
          (.ok a3, c3, l3) := by rw [hinput, ← ha3]
      exact runBind_ok h3 hpure
    rw [runBind_ok hcss (runBind_ok hpseudo hrest)]
    refine ⟨hispec.1, ?_, a3, rfl, ?_⟩
    · intro x hx
      simp only [List.append_nil, List.mem_append, List.mem_singleton] at hx
      rcases hx with h | h | h
      · exact h
      · rw [h, id_cloneCSSStyleF]
      · have := hispec.2.1 x h
        rw [this, id_setId, id_cloneCSSStyleF]
    · rw [haid, id_setId, id_cloneCSSStyleF]


/-! Freshness of all writes: the operation mutates only nodes it
allocated itself, never any pre-existing (source) node. -/

/-- Induction motive for cloneNode: the counter never decreases and every
write of the run targets an id allocated at or after the entry counter. -/
def WritesFreshNode (env : Env) (node : SNode) (options : Options) (isRoot : Bool) : Prop :=
  ∀ c0 : Nat,
    c0 ≤ (cloneNodeM env node options isRoot c0).2.1 ∧
    (∀ t, LogEntry.write t ∈ (cloneNodeM env node options isRoot c0).2.2 → c0 ≤ t)

/-- Induction motive for cloneChildren: writes hit the clone being filled
or fresh ids, and the returned clone is the one passed in (same id). -/
def WritesFreshChildren (env : Env) (nativeNode : SNode) (clonedNode : CNode)
    (options : Options) : Prop :=
  ∀ c0 : Nat,
    c0 ≤ (cloneChildrenM env nativeNode clonedNode options c0).2.1 ∧
    (∀ t, LogEntry.write t ∈ (cloneChildrenM env nativeNode clonedNode options c0).2.2 →
      t = clonedNode.id ∨ c0 ≤ t) ∧
    (∀ a, (cloneChildrenM env nativeNode clonedNode options c0).1 = .ok a →
      a.id = clonedNode.id)

/-- Induction motive for the child fold, same shape as for cloneChildren. -/
def WritesFreshFold (env : Env) (cs : List SNode) (clonedNode : CNode)
    (options : Options) : Prop :=
  ∀ c0 : Nat,
    c0 ≤ (foldChildrenM env cs clonedNode options c0).2.1 ∧
    (∀ t, LogEntry.write t ∈ (foldChildrenM env cs clonedNode options c0).2.2 →
      t = clonedNode.id ∨ c0 ≤ t) ∧
    (∀ a, (foldChildrenM env cs clonedNode options c0).1 = .ok a →
      a.id = clonedNode.id)

theorem cloneNodeM_writes_fresh (env : Env) (node : SNode) (options : Options)
    (isRoot : Bool) : WritesFreshNode env node options isRoot := by
  refine cloneNodeM.induct env (WritesFreshNode env) (WritesFreshChildren env)
    (WritesFreshFold env) ?_ ?_ ?_ ?_ ?_ ?_ node options isRoot
  · intro node options isRoot hcond c0
    rw [cloneNodeM, if_pos hcond]
    exact ⟨Nat.le_refl c0, by simp [pureDef, CloneM.pure]⟩
  · intro node options isRoot hcond ih2 c0
    rw [cloneNodeM, if_neg hcond]
    rcases h1 : cloneSingleNode env node options c0 with ⟨r1, c1, l1⟩
    have hs1 := cloneSingleNode_spec env node options c0
    rw [h1] at hs1
    dsimp only at hs1
    cases r1 with
    | error e =>
      rw [runBind_error h1]
      exact ⟨hs1.1, fun t ht => absurd ht (hs1.2.1 t)⟩
    | ok a =>
      have haid : a.id = c0 := hs1.2.2 a rfl
      rcases h2 : cloneChildrenM env node a options c1 with ⟨r2, c2, l2⟩
      have hs2 := ih2 a c1
      rw [h2] at hs2
      dsimp only at hs2
      cases r2 with
      | error e =>
        rw [runBind_ok h1 (runBind_error h2)]
        refine ⟨Nat.le_trans hs1.1 hs2.1, ?_⟩
        intro t ht
        rw [List.mem_append] at ht
        cases ht with
        | inl hin => exact absurd hin (hs1.2.1 t)
        | inr hin =>
          cases hs2.2.1 t hin with
          | inl h =>
            have h1le : c0 ≤ c1 := hs1.1
            omega
          | inr h =>
            have h1le : c0 ≤ c1 := hs1.1
            omega
      | ok b =>
        have hbid : b.id = a.id := hs2.2.2 b rfl
        have hs3 := decorate_spec env node b c2
        obtain ⟨d, hd, hdid⟩ := hs3.2.2
        have h3 : decorate env node b c2 =
            (.ok d, (decorate env node b c2).2.1, (decorate env node b c2).2.2) := by
          rw [← hd]
        have hpure : (pure (some d) : CloneM (Option CNode)) (decorate env node b c2).2.1 =
            (.ok (some d), (decorate env node b c2).2.1, []) := rfl
        rw [runBind_ok h1 (runBind_ok h2 (runBind_ok h3 hpure))]
        have hc3 : (decorate env node b c2).2.1 = c2 := hs3.1
        dsimp only
        refine ⟨?_, ?_⟩
        · rw [hc3]
          have h1le : c0 ≤ c1 := hs1.1
          have h2le : c1 ≤ c2 := hs2.1
          omega
        · intro t ht
          simp only [List.append_nil, List.mem_append] at ht
          rcases ht with h | h | h
          · exact absurd h (hs1.2.1 t)
          · have h1le : c0 ≤ c1 := hs1.1
            cases hs2.2.1 t h with
            | inl hh => omega
            | inr hh => omega
          · have := hs3.2.1 (LogEntry.write t) h
            rw [LogEntry.write.injEq] at this
            rw [this, hbid, haid]
  · intro native cloned options children hguard c0
    rw [cloneChildrenM_skip env options native cloned c0 hguard]
    refine ⟨Nat.le_refl c0, by simp, ?_⟩
    intro a ha
    have : Except.ok (ε := Err) cloned = .ok a := ha
    rw [Except.ok.injEq] at this
    rw [← this]
  · intro native cloned options children hguard ih3 c0
    have hg : ((effectiveChildren native).length == 0 || native.isVideo) = false :=
      Bool.eq_false_iff.mpr hguard
    have hrw : cloneChildrenM env native cloned options =
        foldChildrenM env (effectiveChildren native) cloned options := by
      rw [cloneChildrenM]
      simp only [hg, Bool.false_eq_true, if_false]
    rw [hrw]
    exact ih3 c0
  · intro cloned options c0
    rw [foldChildrenM]
    refine ⟨Nat.le_refl c0, by simp [pureDef, CloneM.pure], ?_⟩
    intro a ha
    have : Except.ok (ε := Err) cloned = .ok a := ha
    rw [Except.ok.injEq] at this
    rw [← this]
  · intro cloned options child rest ih1 ihrest c0
    rw [foldChildrenM]
    rcases hchild : cloneNodeM env child options false c0 with ⟨r0, c1, l0⟩
    have hihc := ih1 c0
    rw [hchild] at hihc
    cases r0 with
    | error e =>
      rw [runBind_error hchild]
      exact ⟨hihc.1, fun t ht => Or.inr (hihc.2 t ht), fun a ha => absurd ha (by simp)⟩
    | ok r =>
      cases r with
      | some cc =>
        have hmut : mutate cloned (fun cl => cl.appendChildF cc) c1 =
            (.ok (cloned.appendChildF cc), c1, [LogEntry.write cloned.id]) := rfl
        rcases hrest : foldChildrenM env rest (cloned.appendChildF cc) options c1
          with ⟨r2, c2, l2⟩
        have hihr := ihrest (cloned.appendChildF cc) c1
        rw [hrest] at hihr
        rw [runBind_ok hchild (runBind_ok hmut hrest)]
        refine ⟨Nat.le_trans hihc.1 hihr.1, ?_, ?_⟩
        · intro t ht
          simp only [List.mem_append, List.mem_singleton] at ht
          rcases ht with h | h | h
          · exact Or.inr (hihc.2 t h)
          · rw [LogEntry.write.injEq] at h
            exact Or.inl h
          · cases hihr.2.1 t h with
            | inl hh =>
              rw [id_appendChildF] at hh
              exact Or.inl hh
            | inr hh =>
              have h1le : c0 ≤ c1 := hihc.1
              exact Or.inr (by omega)
        · intro a ha
          have := hihr.2.2 a ha
          rw [id_appendChildF] at this
          exact this
      | none =>
        have hpure : (pure cloned : CloneM CNode) c1 = (.ok cloned, c1, []) := rfl
        rcases hrest : foldChildrenM env rest cloned options c1 with ⟨r2, c2, l2⟩
        have hihr := ihrest cloned c1
        rw [hrest] at hihr
        rw [runBind_ok hchild (runBind_ok hpure hrest)]
        refine ⟨Nat.le_trans hihc.1 hihr.1, ?_, hihr.2.2⟩
        intro t ht
        simp only [List.nil_append, List.mem_append] at ht
        rcases ht with h | h
        · exact Or.inr (hihc.2 t h)
        · cases hihr.2.1 t h with
          | inl hh => exact Or.inl hh
          | inr hh =>
            have h1le : c0 ≤ c1 := hihc.1
            exact Or.inr (by omega)

/-- Claim C9: the cloning operation never mutates any source node or the
live source tree. Assuming every node of the source tree has an identity
below the entry counter (source nodes pre-exist every allocation of this
run), every write performed anywhere in the run targets an id allocated
by the run itself, and in particular never the id of any source node;
source nodes are only ever read. -/
theorem claim9_source_not_mutated (env : Env) (node : SNode) (options : Options)
    (isRoot : Bool) (c0 : Nat) (hsrc : ∀ s ∈ sourceNodes node, s.id < c0) :
    ∀ t, LogEntry.write t ∈ (cloneNodeM env node options isRoot c0).2.2 →
      c0 ≤ t ∧ ∀ s ∈ sourceNodes node, t ≠ s.id := by
  intro t ht
  have h := (cloneNodeM_writes_fresh env node options isRoot c0).2 t ht
  refine ⟨h, ?_⟩
  intro s hs
  have := hsrc s hs
  omega

def spanClone100 : CNode := CNode.mk 100 true (some "SPAN") [] "" "" []

theorem cloneNodeM_spanNode_run :
    ∃ d : CNode, cloneNodeM envW spanNode optionsNoFilter true 100 =
      (.ok (some d), 101, [] ++ ([] ++ ([LogEntry.write 100, LogEntry.write 100] ++ []))) := by
  have h1 : cloneSingleNode envW spanNode optionsNoFilter 100 =
      (.ok spanClone100, 101, []) := rfl
  have h2 : cloneChildrenM envW spanNode spanClone100 optionsNoFilter 101 =
      (.ok spanClone100, 101, []) :=
    cloneChildrenM_skip envW optionsNoFilter spanNode spanClone100 101 (by decide)
  obtain ⟨d, hd, hdid⟩ := (decorate_spec envW spanNode spanClone100 101).2.2
  have hcnt : (decorate envW spanNode spanClone100 101).2.1 = 101 := rfl
  have hlog : (decorate envW spanNode spanClone100 101).2.2 =
      [LogEntry.write 100, LogEntry.write 100] := rfl
  have h3 : decorate envW spanNode spanClone100 101 =
      (.ok d, 101, [LogEntry.write 100, LogEntry.write 100]) := by
    rcases hX : decorate envW spanNode spanClone100 101 with ⟨r, c, l⟩
    rw [hX] at hd hcnt hlog
    dsimp only at hd hcnt hlog
    rw [hd, hcnt, hlog]
  have hpure : (pure (some d) : CloneM (Option CNode)) 101 = (.ok (some d), 101, []) := rfl
  refine ⟨d, ?_⟩
  rw [cloneNodeM, if_neg (by decide)]
  exact runBind_ok h1 (runBind_ok h2 (runBind_ok h3 hpure))

theorem claim9_witness :
    100 ≤ 100 ∧ ∀ s ∈ sourceNodes spanNode, 100 ≠ s.id := by
  have hsrc : ∀ s ∈ sourceNodes spanNode, s.id < 100 := by
    intro s hs
    rw [sourceNodes] at hs
    simp only [sourceNodesList, SNode.children, SNode.shadowChildren, SNode.assigned,
      spanNode, Option.getD_none] at hs
    simp only [List.append_nil, List.mem_singleton] at hs
    subst hs
    decide
  obtain ⟨d, hrun⟩ := cloneNodeM_spanNode_run
  have ht : LogEntry.write 100 ∈ (cloneNodeM envW spanNode optionsNoFilter true 100).2.2 := by
    rw [hrun]
    simp
  exact claim9_source_not_mutated envW spanNode optionsNoFilter true 100 hsrc 100 ht

/-! Error propagation: a rejection of a collaborator invocation aborts the
whole run with that exact failure, and failures arise in no other way. -/

/-- The result and log of a run track collaborator failures exactly: a
logged invocation whose oracle answer is a rejection forces the run to
end in that exact rejection, and every rejection of the run is the oracle
answer of some logged invocation, unmodified. -/
def ErrTrack (env : Env) {α : Type} (r : Except Err α) (l : List LogEntry) : Prop :=
  (∀ u e, LogEntry.fetchCall u ∈ l → env.fetchBlob u = .error e → r = .error e) ∧
  (∀ u e, LogEntry.imageCall u ∈ l → env.decodeImage u = .error e → r = .error e) ∧
  (∀ e, r = .error e →
    (∃ u, LogEntry.fetchCall u ∈ l ∧ env.fetchBlob u = .error e) ∨
    (∃ u, LogEntry.imageCall u ∈ l ∧ env.decodeImage u = .error e))

def ErrSound (env : Env) {α : Type} (x : CloneM α) : Prop :=
  ∀ c : Nat, ErrTrack env ((x c).1) ((x c).2.2)

theorem errTrack_ok (env : Env) {α : Type} (a : α) : ErrTrack env (.ok a) [] := by
  refine ⟨?_, ?_, ?_⟩
  · intro u e hm
    exact absurd hm (by simp)
  · intro u e hm
    exact absurd hm (by simp)
  · intro e he
    exact absurd he (by simp)

theorem errSound_pure (env : Env) {α : Type} (a : α) : ErrSound env (pure a : CloneM α) :=
  fun _ => errTrack_ok env a

theorem errSound_mutate (env : Env) (cl : CNode) (f : CNode → CNode) :
    ErrSound env (mutate cl f) := by
  intro c
  refine ⟨?_, ?_, ?_⟩
  · intro u e hm
    exact absurd hm (by simp [mutate])
  · intro u e hm
    exact absurd hm (by simp [mutate])
  · intro e he
    exact absurd he (by simp [mutate])

theorem errTrack_error_congr {α β : Type} (env : Env) (e : Err) (l : List LogEntry)
    (h : ErrTrack env (Except.error e : Except Err α) l) :
    ErrTrack env (Except.error e : Except Err β) l := by
  refine ⟨?_, ?_, ?_⟩
  · intro u e2 hm herr
    have h2 := h.1 u e2 hm herr
    rw [Except.error.injEq] at h2
    rw [h2]
  · intro u e2 hm herr
    have h2 := h.2.1 u e2 hm herr
    rw [Except.error.injEq] at h2
    rw [h2]
  · intro e2 he
    rw [Except.error.injEq] at he
    subst he
    exact h.2.2 e rfl

theorem errSound_bind (env : Env) {α β : Type} {x : CloneM α} {f : α → CloneM β}
    (hx : ErrSound env x) (hf : ∀ a, ErrSound env (f a)) : ErrSound env (x >>= f) := by
  intro c
  rcases hxc : x c with ⟨r0, c1, l1⟩
  have hx1 := hx c
  rw [hxc] at hx1
  dsimp only at hx1
  cases r0 with
  | error e =>
    rw [runBind_error hxc]
    dsimp only
    exact errTrack_error_congr env e l1 hx1
  | ok a =>
    rcases hfc : f a c1 with ⟨r2, c2, l2⟩
    have hf1 := hf a c1
    rw [hfc] at hf1
    dsimp only at hf1
    rw [runBind_ok hxc hfc]
    dsimp only
    refine ⟨?_, ?_, ?_⟩
    · intro u e hm herr
      rw [List.mem_append] at hm
      cases hm with
      | inl h => exact absurd (hx1.1 u e h herr) (by simp)
      | inr h => exact hf1.1 u e h herr
    · intro u e hm herr
      rw [List.mem_append] at hm
      cases hm with
      | inl h => exact absurd (hx1.2.1 u e h herr) (by simp)
      | inr h => exact hf1.2.1 u e h herr
    · intro e he
      cases hf1.2.2 e he with
      | inl h =>
        obtain ⟨u, hm, herr⟩ := h
        exact Or.inl ⟨u, List.mem_append_right l1 hm, herr⟩
      | inr h =>
        obtain ⟨u, hm, herr⟩ := h
        exact Or.inr ⟨u, List.mem_append_right l1 hm, herr⟩

theorem errSound_callFetch (env : Env) (url : String) : ErrSound env (callFetch env url) := by
  intro c
  refine ⟨?_, ?_, ?_⟩
  · intro u e hm herr
    simp only [callFetch, List.mem_singleton] at hm ⊢
    rw [LogEntry.fetchCall.injEq] at hm
    subst hm
    exact herr
  · intro u e hm
    exact absurd hm (by simp [callFetch])
  · intro e he
    simp only [callFetch] at he
    exact Or.inl ⟨url, by simp [callFetch], he⟩

theorem errSound_createImage (env : Env) (d : String) : ErrSound env (createImage env d) := by
  intro c
  unfold createImage
  cases hd : env.decodeImage d with
  | ok u =>
    dsimp only
    refine ⟨?_, ?_, ?_⟩
    · intro u' e hm
      exact absurd hm (by simp)
    · intro u' e hm herr
      rw [List.mem_singleton, LogEntry.imageCall.injEq] at hm
      subst hm
      rw [hd] at herr
      exact absurd herr (by simp)
    · intro e he
      exact absurd he (by simp)
  | error e0 =>
    dsimp only
    refine ⟨?_, ?_, ?_⟩
    · intro u' e hm
      exact absurd hm (by simp)
    · intro u' e hm herr
      rw [List.mem_singleton, LogEntry.imageCall.injEq] at hm
      subst hm
      rw [hd] at herr
      rw [Except.error.injEq] at herr
      rw [herr]
    · intro e he
      rw [Except.error.injEq] at he
      subst he
      exact Or.inr ⟨d, by simp, hd⟩

theorem errSound_shallowClone (env : Env) (node : SNode) : ErrSound env (shallowClone node) := by
  intro c
  refine ⟨?_, ?_, ?_⟩
  · intro u e hm
    exact absurd hm (by simp [shallowClone])
  · intro u e hm
    exact absurd hm (by simp [shallowClone])
  · intro e he
    exact absurd he (by simp [shallowClone])

theorem errSound_cloneVideoElement (env : Env) (node : SNode) (options : Options) :
    ErrSound env (cloneVideoElement env node options) := by
  unfold cloneVideoElement
  exact errSound_bind env (errSound_callFetch env node.poster)
    (fun data => errSound_createImage env _)

theorem errSound_cloneSingleNode (env : Env) (node : SNode) (options : Options) :
    ErrSound env (cloneSingleNode env node options) := by
  unfold cloneSingleNode
  cases hk : node.kind with
  | canvas d =>
    dsimp only
    unfold cloneCanvasElement
    split
    · exact errSound_shallowClone env node
    · exact errSound_createImage env node.toDataURL
  | video p =>
    dsimp only
    split
    · exact errSound_shallowClone env node
    · exact errSound_cloneVideoElement env node options
  | textarea => exact errSound_shallowClone env node
  | input => exact errSound_shallowClone env node
  | element => exact errSound_shallowClone env node
  | textNode => exact errSound_shallowClone env node

theorem errSound_cloneInputValueM (env : Env) (native : SNode) (cl : CNode) :
    ErrSound env (cloneInputValueM native cl) := by
  intro c
  have hs := cloneInputValueM_spec native cl c
  obtain ⟨a, ha, _⟩ := hs.2.2
  refine ⟨?_, ?_, ?_⟩
  · intro u e hm herr
    have hx := hs.2.1 (LogEntry.fetchCall u) hm
    exact absurd hx (by simp)
  · intro u e hm herr
    have hx := hs.2.1 (LogEntry.imageCall u) hm
    exact absurd hx (by simp)
  · intro e he
    rw [ha] at he
    exact absurd he (by simp)

theorem errSound_decorate (env : Env) (native : SNode) (cl : CNode) :
    ErrSound env (decorate env native cl) := by
  intro c
  have hs := decorate_spec env native cl c
  obtain ⟨a, ha, _⟩ := hs.2.2
  refine ⟨?_, ?_, ?_⟩
  · intro u e hm herr
    have hx := hs.2.1 (LogEntry.fetchCall u) hm
    exact absurd hx (by simp)
  · intro u e hm herr
    have hx := hs.2.1 (LogEntry.imageCall u) hm
    exact absurd hx (by simp)
  · intro e he
    rw [ha] at he
    exact absurd he (by simp)

def ErrSoundNode (env : Env) (node : SNode) (options : Options) (isRoot : Bool) : Prop :=
  ErrSound env (cloneNodeM env node options isRoot)

def ErrSoundChildren (env : Env) (nativeNode : SNode) (clonedNode : CNode)
    (options : Options) : Prop :=
  ErrSound env (cloneChildrenM env nativeNode clonedNode options)

def ErrSoundFold (env : Env) (cs : List SNode) (clonedNode : CNode)
    (options : Options) : Prop :=
  ErrSound env (foldChildrenM env cs clonedNode options)

theorem errSound_cloneNodeM (env : Env) (node : SNode) (options : Options) (isRoot : Bool) :
    ErrSoundNode env node options isRoot := by
  refine cloneNodeM.induct env (ErrSoundNode env) (ErrSoundChildren env)
    (ErrSoundFold env) ?_ ?_ ?_ ?_ ?_ ?_ node options isRoot
  · intro node options isRoot hcond
    intro c
    rw [cloneNodeM, if_pos hcond]
    exact errTrack_ok env none
  · intro node options isRoot hcond ih2
    intro c
    rw [cloneNodeM, if_neg hcond]
    refine errSound_bind env (errSound_cloneSingleNode env node options) ?_ c
    intro a
    refine errSound_bind env (ih2 a) ?_
    intro b
    refine errSound_bind env (errSound_decorate env node b) ?_
    intro d
    exact errSound_pure env (some d)
  · intro native cloned options children hguard
    intro c
    rw [cloneChildrenM_skip env options native cloned c hguard]
    exact errTrack_ok env cloned
  · intro native cloned options children hguard ih3
    have hg : ((effectiveChildren native).length == 0 || native.isVideo) = false :=
      Bool.eq_false_iff.mpr hguard
    have hrw : cloneChildrenM env native cloned options =
        foldChildrenM env (effectiveChildren native) cloned options := by
      rw [cloneChildrenM]
      simp only [hg, Bool.false_eq_true, if_false]
    intro c
    rw [hrw]
    exact ih3 c
  · intro cloned options
    intro c
    rw [foldChildrenM]
    exact errTrack_ok env cloned
  · intro cloned options child rest ih1 ihrest
    intro c
    rw [foldChildrenM]
    refine errSound_bind env ih1 ?_ c
    intro r
    cases r with
    | some cc =>
      exact errSound_bind env (errSound_mutate env cloned _) (fun c1 => ihrest c1)
    | none =>
      exact errSound_bind env (errSound_pure env cloned) (fun c1 => ihrest c1)

/-- Claim C8: if any getBlobFromURL or createImage invocation started
anywhere in the recursion rejects, the whole top-level cloneNode call
rejects with that exact failure, unmodified, and returns no result; and
conversely every rejection of the call is the verbatim rejection of such
an invocation — no fallback value is ever substituted for a failed decode
or fetch. -/
theorem claim8_error_propagation (env : Env) (node : SNode) (options : Options)
    (isRoot : Bool) (c0 : Nat) :
    (∀ u e, LogEntry.fetchCall u ∈ (cloneNodeM env node options isRoot c0).2.2 →
      env.fetchBlob u = .error e →
      (cloneNodeM env node options isRoot c0).1 = .error e) ∧
    (∀ u e, LogEntry.imageCall u ∈ (cloneNodeM env node options isRoot c0).2.2 →
      env.decodeImage u = .error e →
      (cloneNodeM env node options isRoot c0).1 = .error e) ∧
    (∀ e, (cloneNodeM env node options isRoot c0).1 = .error e →
      (∃ u, LogEntry.fetchCall u ∈ (cloneNodeM env node options isRoot c0).2.2 ∧
        env.fetchBlob u = .error e) ∨
      (∃ u, LogEntry.imageCall u ∈ (cloneNodeM env node options isRoot c0).2.2 ∧
        env.decodeImage u = .error e)) :=
  errSound_cloneNodeM env node options isRoot c0

def envFail : Env :=
  ⟨fun _ => .error "boom", fun _ => .ok (), fun _ => none,
    fun b m => "data:" ++ m ++ "," ++ b, fun _ c => c⟩

theorem cloneNodeM_envFail_run :
    cloneNodeM envFail videoPosterNode optionsNoFilter true 0 =
      (.error "boom", 0, [LogEntry.fetchCall "poster.png"]) := by
  have h1 : cloneSingleNode envFail videoPosterNode optionsNoFilter 0 =
      (.error "boom", 0, [LogEntry.fetchCall "poster.png"]) := rfl
  rw [cloneNodeM, if_neg (by decide)]
  exact runBind_error h1

theorem claim8_witness :
    (cloneNodeM envFail videoPosterNode optionsNoFilter true 0).1 = .error "boom" :=
  (claim8_error_propagation envFail videoPosterNode optionsNoFilter true 0).1
    "poster.png" "boom" (by rw [cloneNodeM_envFail_run]; simp) rfl
